import Mathlib

/-!
Verification of the bevy_pixel_widgets UI integration layer.

This file gives a shallow embedding, in Lean 4, of the event translation,
session update, draw-list reconciliation and render-command emission code of
the repository, and proves (or refutes) the specified properties about it.

The repository contains two historical revisions of most subsystems:
  * `update.rs` + `pixel_widgets_node.rs` (the newer revision), embedded in
    namespace `UpdateRs` and `PixelNode` below;
  * `event.rs` + `node.rs` (the older revision), embedded in namespace
    `EventRs` and `NodeRs` below.
Definitions are translated directly from the Rust source; comments cite the
source file and lines they come from.
-/

namespace BPW

/-- Host key codes (`bevy::input::prelude::KeyCode`), restricted to the
variants the translation tables inspect; `Other` stands for every variant
that falls into the catch-all `_` arm. -/
inductive KeyCode where
  | Key1 | Key2 | Key3 | Key4 | Key5 | Key6 | Key7 | Key8 | Key9 | Key0
  | A | B | C | D | E | F | G | H | I | J | K | L | M
  | N | O | P | Q | R | S | T | U | V | W | X | Y | Z
  | Escape | Tab
  | LShift | RShift | LControl | RControl | LAlt | RAlt | LWin | RWin
  | Space | Return | Back | Home | End | Left | Right | Up | Down
  | Other
deriving DecidableEq, Repr

/-- Library keys (`pixel_widgets::event::Key`). -/
inductive Key where
  | Key1 | Key2 | Key3 | Key4 | Key5 | Key6 | Key7 | Key8 | Key9 | Key0
  | A | B | C | D | E | F | G | H | I | J | K | L | M
  | N | O | P | Q | R | S | T | U | V | W | X | Y | Z
  | Escape | Tab | Shift | Ctrl | Alt
  | Space | Enter | Backspace | Home | End | Left | Right | Up | Down
  | LeftMouseButton | RightMouseButton | MiddleMouseButton
deriving DecidableEq, Repr

/-- Key press state (`bevy::input::ElementState`). -/
inductive ElementState where
  | Pressed
  | Released
deriving DecidableEq, Repr

/-- Modifier state record (`pixel_widgets::event::Modifiers`). -/
structure Modifiers where
  ctrl : Bool
  alt : Bool
  shift : Bool
  logo : Bool
deriving DecidableEq, Repr

/-- The all-false initial modifier state (`State::default`, update.rs 25-36
and event.rs 20-36). -/
def initModifiers : Modifiers := ⟨false, false, false, false⟩

/-- Library input events (`pixel_widgets::event::Event`).  The `f32` payloads
of the source are modelled as exact rationals: the embedded code only moves
and compares these values, it never performs rounding arithmetic on them. -/
inductive Event where
  | Resize (w h : ℚ)
  | Modifiers (m : Modifiers)
  | Press (k : Key)
  | Release (k : Key)
  | Text (c : Char)
  | Cursor (x y : ℚ)
  | Scroll (x y : ℚ)
deriving DecidableEq, Repr

/-- Host keyboard event (`bevy::input::keyboard::KeyboardInput`), the fields
the translator reads. -/
structure KeyboardInput where
  key_code : Option KeyCode
  state : ElementState
deriving DecidableEq, Repr

/-- Key code translation table, `translate_key_code` (update.rs 293-347; the
copy in event.rs 132-186 is identical).  Note that only the left variants of
the modifier keys are mapped; `RShift`, `RControl` and `RAlt` fall into the
catch-all arm and yield `none`. -/
def translate_key_code (key_code : KeyCode) : Option Key :=
  match key_code with
  | .Key1 => some .Key1
  | .Key2 => some .Key2
  | .Key3 => some .Key3
  | .Key4 => some .Key4
  | .Key5 => some .Key5
  | .Key6 => some .Key6
  | .Key7 => some .Key7
  | .Key8 => some .Key8
  | .Key9 => some .Key9
  | .Key0 => some .Key0
  | .A => some .A
  | .B => some .B
  | .C => some .C
  | .D => some .D
  | .E => some .E
  | .F => some .F
  | .G => some .G
  | .H => some .H
  | .I => some .I
  | .J => some .J
  | .K => some .K
  | .L => some .L
  | .M => some .M
  | .N => some .N
  | .O => some .O
  | .P => some .P
  | .Q => some .Q
  | .R => some .R
  | .S => some .S
  | .T => some .T
  | .U => some .U
  | .V => some .V
  | .W => some .W
  | .X => some .X
  | .Y => some .Y
  | .Z => some .Z
  | .Escape => some .Escape
  | .Tab => some .Tab
  | .LShift => some .Shift
  | .LControl => some .Ctrl
  | .LAlt => some .Alt
  | .Space => some .Space
  | .Return => some .Enter
  | .Back => some .Backspace
  | .Home => some .Home
  | .End => some .End
  | .Left => some .Left
  | .Right => some .Right
  | .Up => some .Up
  | .Down => some .Down
  | _ => none

/-- Modifier-state update for one keyboard event: the `match event.key_code`
block at update.rs 160-178 (identical copy at event.rs 53-71).  Returns the
new modifier state and the events pushed by this block.  Note: the
`LWin | RWin` arm of the source assigns `modifiers.shift`, not
`modifiers.logo`. -/
def applyModifiers (mods : Modifiers) (event : KeyboardInput) :
    Modifiers × List Event :=
  match event.key_code with
  | some .LControl | some .RControl =>
      let m := { mods with ctrl := event.state = ElementState.Pressed }
      (m, [Event.Modifiers m])
  | some .LAlt | some .RAlt =>
      let m := { mods with alt := event.state = ElementState.Pressed }
      (m, [Event.Modifiers m])
  | some .LShift | some .RShift =>
      let m := { mods with shift := event.state = ElementState.Pressed }
      (m, [Event.Modifiers m])
  | some .LWin | some .RWin =>
      let m := { mods with shift := event.state = ElementState.Pressed }
      (m, [Event.Modifiers m])
  | _ => (mods, [])

namespace UpdateRs

/-- Press/release translation for one keyboard event: the `match event` block
at update.rs 180-199.  Unmapped key codes produce no event. -/
def keyEvents (event : KeyboardInput) : List Event :=
  match event.state, event.key_code.bind translate_key_code with
  | .Pressed, some key => [Event.Press key]
  | .Released, some key => [Event.Release key]
  | _, none => []

/-- Processing of a single keyboard event in the update.rs revision
(update.rs 159-200): first the modifier block, then the press/release
block. -/
def processKeyboardEvent (mods : Modifiers) (event : KeyboardInput) :
    Modifiers × List Event :=
  let (m, evs) := applyModifiers mods event
  (m, evs ++ keyEvents event)

/-- Processing of a whole frame's keyboard event list, threading the
persistent modifier state (the `for event in params.keyboard_events` loop,
update.rs 159-200). -/
def processKeyboardEvents (mods : Modifiers) :
    List KeyboardInput → Modifiers × List Event
  | [] => (mods, [])
  | e :: rest =>
      let (m1, evs1) := processKeyboardEvent mods e
      let (m2, evs2) := processKeyboardEvents m1 rest
      (m2, evs1 ++ evs2)

end UpdateRs

namespace EventRs

/-- Key-to-character table `translate_key_to_text` (event.rs 188-265), used
by the older revision to derive printable characters from key + shift
state. -/
def translate_key_to_text (key_code : Key) (modifiers : Modifiers) :
    Option Char :=
  match key_code, modifiers.shift with
  | .A, false => some 'a'
  | .B, false => some 'b'
  | .C, false => some 'c'
  | .D, false => some 'd'
  | .E, false => some 'e'
  | .F, false => some 'f'
  | .G, false => some 'g'
  | .H, false => some 'h'
  | .I, false => some 'i'
  | .J, false => some 'j'
  | .K, false => some 'k'
  | .L, false => some 'l'
  | .M, false => some 'm'
  | .N, false => some 'n'
  | .O, false => some 'o'
  | .P, false => some 'p'
  | .Q, false => some 'q'
  | .R, false => some 'r'
  | .S, false => some 's'
  | .T, false => some 't'
  | .U, false => some 'u'
  | .V, false => some 'v'
  | .W, false => some 'w'
  | .X, false => some 'x'
  | .Y, false => some 'y'
  | .Z, false => some 'z'
  | .A, true => some 'A'
  | .B, true => some 'B'
  | .C, true => some 'C'
  | .D, true => some 'D'
  | .E, true => some 'E'
  | .F, true => some 'F'
  | .G, true => some 'G'
  | .H, true => some 'H'
  | .I, true => some 'I'
  | .J, true => some 'J'
  | .K, true => some 'K'
  | .L, true => some 'L'
  | .M, true => some 'M'
  | .N, true => some 'N'
  | .O, true => some 'O'
  | .P, true => some 'P'
  | .Q, true => some 'Q'
  | .R, true => some 'R'
  | .S, true => some 'S'
  | .T, true => some 'T'
  | .U, true => some 'U'
  | .V, true => some 'V'
  | .W, true => some 'W'
  | .X, true => some 'X'
  | .Y, true => some 'Y'
  | .Z, true => some 'Z'
  | .Key0, false => some '0'
  | .Key1, false => some '1'
  | .Key2, false => some '2'
  | .Key3, false => some '3'
  | .Key4, false => some '4'
  | .Key5, false => some '5'
  | .Key6, false => some '6'
  | .Key7, false => some '7'
  | .Key8, false => some '8'
  | .Key9, false => some '9'
  | .Key0, true => some '!'
  | .Key1, true => some '@'
  | .Key2, true => some '#'
  | .Key3, true => some '$'
  | .Key4, true => some '%'
  | .Key5, true => some '^'
  | .Key6, true => some '&'
  | .Key7, true => some '*'
  | .Key8, true => some '('
  | .Key9, true => some ')'
  | .Space, _ => some ' '
  | _, _ => none

/-- Press/release translation for one keyboard event in the older revision
(event.rs 73-87): a press additionally derives a `Text` event from the key
and the current (already updated) modifier state, pushed BEFORE the `Press`
event. -/
def keyEvents (mods : Modifiers) (event : KeyboardInput) : List Event :=
  match event.state, event.key_code.bind translate_key_code with
  | .Pressed, some key =>
      (match translate_key_to_text key mods with
       | some text => [Event.Text text]
       | none => []) ++ [Event.Press key]
  | .Released, some key => [Event.Release key]
  | _, none => []

/-- Processing of a single keyboard event in the event.rs revision
(event.rs 52-88): first the modifier block, then the press/release block
which reads the updated modifier state. -/
def processKeyboardEvent (mods : Modifiers) (event : KeyboardInput) :
    Modifiers × List Event :=
  let (m, evs) := applyModifiers mods event
  (m, evs ++ keyEvents m event)

/-- Processing of a whole frame's keyboard event list in the event.rs
revision (the `for event in state.keyboard.iter(..)` loop, event.rs
52-88). -/
def processKeyboardEvents (mods : Modifiers) :
    List KeyboardInput → Modifiers × List Event
  | [] => (mods, [])
  | e :: rest =>
      let (m1, evs1) := processKeyboardEvent mods e
      let (m2, evs2) := processKeyboardEvents m1 rest
      (m2, evs1 ++ evs2)

end EventRs

/-!
## Asynchronous command channel and per-frame session update

`Ui::new` (lib.rs 125-133) creates a `std::sync::mpsc::sync_channel(100)`:
a bounded FIFO multi-producer single-consumer queue of capacity 100.  The
channel is modelled as the FIFO list of commands currently queued plus a
disconnection flag.
-/

/-- The command channel: FIFO queue plus disconnection flag
(`std::sync::mpsc` channel created with `sync_channel(100)`, lib.rs 127). -/
structure Channel (C : Type) where
  queue : List C
  disconnected : Bool
deriving DecidableEq, Repr

/-- `EventSender::send_event` (lib.rs 112-114): appends to the FIFO queue;
a disconnected channel (receiver dropped) gives a send error, modelled as
`none`.  The capacity bound of 100 makes a full channel block the sender
rather than fail; blocking is outside this per-frame model, so theorems
about sending restrict themselves to at most 100 queued commands. -/
def Channel.send {C : Type} (ch : Channel C) (c : C) : Option (Channel C) :=
  if ch.disconnected then none else some { ch with queue := ch.queue ++ [c] }

/-- `Receiver::try_iter` as consumed by the drain loop (update.rs 40, also
lib.rs 71, event.rs 121): yields every command currently available, in FIFO
arrival order, without blocking, and leaves the queue empty.  A disconnected
channel simply yields no commands; it is not an error. -/
def Channel.tryIter {C : Type} (ch : Channel C) : List C × Channel C :=
  (ch.queue, { ch with queue := [] })

/-- `Ui::update_commands` (update.rs 38-44): drains the channel and applies
each drained command to the model in arrival order via `self.ui.command`.
The widget library's `command` entry point is abstracted as the function
argument `command`. -/
def update_commands {σ C : Type} (command : σ → C → σ) (model : σ)
    (ch : Channel C) : σ × Channel C :=
  let (cmds, ch1) := ch.tryIter
  (cmds.foldl command model, ch1)

/-- The per-entity body of `UpdateUi::run` restricted to model mutation
(update.rs 252-258): first `update_commands` drains the async channel, then
every input event of the frame is fed to the widget tree in order. -/
def runEntity {σ C E : Type} (command : σ → C → σ) (event : σ → E → σ)
    (model : σ) (ch : Channel C) (events : List E) : σ × Channel C :=
  let (m1, ch1) := update_commands command model ch
  (events.foldl event m1, ch1)

/-- Observable application trace of a session update: commands and events
tagged by kind, in the order the session applied them. -/
inductive AppliedAction (C E : Type) where
  | cmd (c : C)
  | ev (e : E)
deriving DecidableEq, Repr

/-- The command-handling entry point of the trace model: log the command. -/
def logCmd {C E : Type} (t : List (AppliedAction C E)) (c : C) :
    List (AppliedAction C E) :=
  t ++ [AppliedAction.cmd c]

/-- The event-handling entry point of the trace model: log the event. -/
def logEv {C E : Type} (t : List (AppliedAction C E)) (e : E) :
    List (AppliedAction C E) :=
  t ++ [AppliedAction.ev e]

/-- Folding `send` over a list of commands, starting from a given channel:
the totality of what the producers sent before the frame update.  A send on
a disconnected channel is dropped (the producer receives an error). -/
def sendAll {C : Type} (ch : Channel C) (cs : List C) : Channel C :=
  cs.foldl (fun ch c => (ch.send c).getD ch) ch

/-!
## Window-size tracking and `resize`

Two revisions track the window size.  `UpdateUi::run` (update.rs 239-244)
keeps the last applied size in the per-session field `wrapper.window` and
updates it.  `render_ui` (pixel_widgets_node.rs 199-201, 281) keeps a field
`state.current_window_size` that the filter reads but that no code ever
assigns.  Window sizes (`f32` pairs) are modelled as rational pairs; the
code only compares them for equality.
-/

/-- One frame of the update.rs revision's size tracking (update.rs 239-244):
if the window size differs from the stored one, store it and invoke
`ui.resize`.  Returns the new stored size and whether resize was invoked. -/
def updateRsResizeStep (window : ℚ × ℚ) (last : Option (ℚ × ℚ)) :
    Option (ℚ × ℚ) × Bool :=
  if some window ≠ last then (some window, true) else (last, false)

/-- The update.rs revision's size tracking over a sequence of frames; the
second component lists, per frame, whether `resize` was invoked. -/
def updateRsResizeRun (last : Option (ℚ × ℚ)) :
    List (ℚ × ℚ) → Option (ℚ × ℚ) × List Bool
  | [] => (last, [])
  | w :: rest =>
      let (l1, r1) := updateRsResizeStep w last
      let (l2, rs) := updateRsResizeRun l1 rest
      (l2, r1 :: rs)

/-- One frame of the render-node revision's size tracking
(pixel_widgets_node.rs 199-201 and 281): `new_window_size` is the current
window size filtered by disagreement with `state.current_window_size`, and
`ui.resize` runs iff it is `some`.  The source never assigns
`state.current_window_size`, so the state is returned unchanged. -/
def renderUiResizeStep (window : ℚ × ℚ) (current : Option (ℚ × ℚ)) :
    Option (ℚ × ℚ) × Bool :=
  let new_window_size :=
    if current ≠ some window then some window else none
  (current, new_window_size.isSome)

/-- The render-node revision's size tracking over a sequence of frames. -/
def renderUiResizeRun (current : Option (ℚ × ℚ)) :
    List (ℚ × ℚ) → Option (ℚ × ℚ) × List Bool
  | [] => (current, [])
  | w :: rest =>
      let (c1, r1) := renderUiResizeStep w current
      let (c2, rs) := renderUiResizeRun c1 rest
      (c2, r1 :: rs)

/-!
## GPU resource context, association maps

Host GPU resources are identified by numeric ids handed out by the render
resource context (`RenderResourceContext`).  The context model records the
live buffer and texture ids and a log of the resource calls made, in order.
`remove_texture` is part of the host API but is never called by this
repository; it appears here only so that release calls are countable.
-/

/-- One host resource-context call. -/
inductive GpuEvent where
  | createBuffer (id size : Nat)
  | removeBuffer (id : Nat)
  | createTexture (id : Nat)
  | removeTexture (id : Nat)
deriving DecidableEq, Repr

/-- Model of the host `RenderResourceContext`: a fresh-id counter, the sets
of live buffer/texture ids, and the call log. -/
structure Rrc where
  nextId : Nat
  liveBuffers : List Nat
  liveTextures : List Nat
  log : List GpuEvent
deriving DecidableEq, Repr

/-- `create_buffer_with_data` with `BufferInfo { size, .. }`: allocates a
fresh buffer id for a buffer of the given byte size. -/
def Rrc.create_buffer_with_data (ctx : Rrc) (size : Nat) : Rrc × Nat :=
  ({ ctx with
      nextId := ctx.nextId + 1
      liveBuffers := ctx.liveBuffers ++ [ctx.nextId]
      log := ctx.log ++ [GpuEvent.createBuffer ctx.nextId size] },
   ctx.nextId)

/-- `remove_buffer`: releases a buffer id. -/
def Rrc.remove_buffer (ctx : Rrc) (b : Nat) : Rrc :=
  { ctx with
      liveBuffers := ctx.liveBuffers.erase b
      log := ctx.log ++ [GpuEvent.removeBuffer b] }

/-- `create_texture`: allocates a fresh host texture id. -/
def Rrc.create_texture (ctx : Rrc) : Rrc × Nat :=
  ({ ctx with
      nextId := ctx.nextId + 1
      liveTextures := ctx.liveTextures ++ [ctx.nextId]
      log := ctx.log ++ [GpuEvent.createTexture ctx.nextId] },
   ctx.nextId)

/-- Number of texture release calls recorded in a log. -/
def releaseCalls (log : List GpuEvent) : Nat :=
  log.countP fun e => match e with
    | GpuEvent.removeTexture _ => true
    | _ => false

/-- `HashMap::insert` on an association list holding at most one binding per
key: replaces the binding if the key is present, appends it otherwise. -/
def insertKV (k v : Nat) : List (Nat × Nat) → List (Nat × Nat)
  | [] => [(k, v)]
  | (k1, v1) :: rest =>
      if k1 = k then (k, v) :: rest else (k1, v1) :: insertKV k v rest

/-- `HashMap::get` on the association-list model. -/
def lookupKV (k : Nat) : List (Nat × Nat) → Option Nat
  | [] => none
  | (k1, v1) :: rest => if k1 = k then some v1 else lookupKV k rest

/-- Number of bindings a key has in the association-list model. -/
def countKey (k : Nat) (m : List (Nat × Nat)) : Nat :=
  m.countP fun p => p.1 = k

/-!
## Texture upload and row padding (Draw-List Reconciler)

Translation of the `Update` processing loop of `render_ui`
(pixel_widgets_node.rs 291-368; node.rs 85-162 is identical).  Pixel bytes
are modelled as naturals.
-/

/-- Splits a list into successive chunks of `n` elements (Rust
`slice::chunks`); the final chunk may be shorter.  For `n = 0` the source
would panic; the embedding returns `[]` and theorems assume `0 < n`. -/
def chunks (n : Nat) (l : List Nat) : List (List Nat) :=
  if h : 0 < n ∧ l ≠ [] then
    l.take n :: chunks n (l.drop n)
  else
    []
termination_by l.length
decreasing_by
  rcases h with ⟨hn, hl⟩
  have : 0 < l.length := List.length_pos.mpr hl
  simp only [List.length_drop]
  omega

/-- The per-row padding byte count of the `TextureSubresource` arm
(pixel_widgets_node.rs 300, node.rs 94): `256 - (size.width * 4) % 256`.
The `u32` arithmetic of the source agrees with this natural-number
expression because 256 divides 2^32. -/
def subresourcePadding (w : Nat) : Nat := 256 - 4 * w % 256

/-- The row-padded staging data of the `TextureSubresource` arm
(pixel_widgets_node.rs 301-309, node.rs 95-103): split the data into rows of
`4 * w` bytes and append `subresourcePadding w` zero bytes after each row;
the `padding > 0` guard of the source keeps the data unchanged when the
padding is zero. -/
def subresourceData (w : Nat) (data : List Nat) : List Nat :=
  if 0 < subresourcePadding w then
    (chunks (4 * w) data).foldl
      (fun acc row => acc ++ row ++ List.replicate (subresourcePadding w) 0) []
  else
    data

/-- The `bytes_per_row` argument of the subresource copy
(pixel_widgets_node.rs 325, node.rs 119): `size.width * 4 + padding`. -/
def subresourceBytesPerRow (w : Nat) : Nat := 4 * w + subresourcePadding w

/-- A `copy_buffer_to_texture` call issued through the command queue. -/
structure CopyOp where
  srcBuffer : Nat
  bytesPerRow : Nat
  destTexture : Nat
  destOffset : Nat × Nat
  size : Nat × Nat
deriving DecidableEq, Repr

/-- A draw-list resource update (`pixel_widgets::draw::Update`), with pixel
data as a byte list. -/
inductive Update where
  | TextureSubresource (id : Nat) (offset : Nat × Nat) (size : Nat × Nat)
      (data : List Nat)
  | Texture (id : Nat) (size : Nat × Nat) (data : List Nat)
deriving DecidableEq, Repr

/-- Processing of one draw-list `Update` (pixel_widgets_node.rs 292-367;
node.rs 86-161 is identical).  `none` models the
`textures.get(&id).cloned().unwrap()` panic of the subresource arm when the
id is unknown.  The `Texture` arm creates a host texture, overwrites the
id's map entry WITHOUT releasing any previous host texture, and uploads the
data unpadded with `bytes_per_row = size.width * 4`. -/
def applyUpdate (ctx : Rrc) (textures : List (Nat × Nat))
    (copies : List CopyOp) :
    Update → Option (Rrc × List (Nat × Nat) × List CopyOp)
  | Update.TextureSubresource id offset size data =>
      let w := size.1
      let data1 := subresourceData w data
      let (ctx1, staging) := ctx.create_buffer_with_data data1.length
      match lookupKV id textures with
      | none => none
      | some texture_id =>
          some (ctx1, textures,
            copies ++ [⟨staging, subresourceBytesPerRow w, texture_id,
                        offset, size⟩])
  | Update.Texture id size data =>
      let (ctx1, texture_id) := ctx.create_texture
      let textures1 := insertKV id texture_id textures
      if 0 < data.length then
        let (ctx2, staging) := ctx1.create_buffer_with_data data.length
        some (ctx2, textures1,
          copies ++ [⟨staging, size.1 * 4, texture_id, (0, 0), size⟩])
      else
        some (ctx1, textures1, copies)

/-!
## Vertex buffer reconciliation

Translation of the vertex-buffer block of `render_ui`
(pixel_widgets_node.rs 370-383; update.rs 270-288 is the same logic).
`size_of::<Vertex>()` is 36 bytes (2 floats position, 2 floats uv, 4 floats
color, 1 u32 mode), matching the vertex stride 36 of the pipeline
specialization (pixel_widgets_node.rs 220).
-/

/-- Byte size of one `pixel_widgets::draw::Vertex`. -/
def vertexStride : Nat := 36

/-- The vertex-buffer block (pixel_widgets_node.rs 370-383): a non-empty
vertex list allocates a fresh buffer of `len * size_of::<Vertex>()` bytes,
replaces the stored handle, and only then removes the old buffer; an empty
vertex list removes any stored buffer and stores `none`.  `vcount` is the
vertex list length. -/
def reconcileVertexBuffer (ctx : Rrc) (vertex_buffer : Option Nat)
    (vcount : Nat) : Rrc × Option Nat :=
  if 0 < vcount then
    let (ctx1, newBuf) := ctx.create_buffer_with_data (vcount * vertexStride)
    let ctx2 := match vertex_buffer with
      | some old => ctx1.remove_buffer old
      | none => ctx1
    (ctx2, some newBuf)
  else
    match vertex_buffer with
    | some old => (ctx.remove_buffer old, none)
    | none => (ctx, none)

/-!
## Render command emission

Translation of the draw-command walks of the two revisions:
pixel_widgets_node.rs 388-436 (`pixelEmit`) and node.rs 237-280
(`nodeEmit`).  Emission `none` models an `unwrap` panic on a missing
texture.  A bind group is modelled by the texture and sampler ids it binds.
-/

/-- `pixel_widgets::layout::Rectangle`, the clip region payload; the `f32`
fields are modelled as rationals. -/
structure Rectangle where
  left : ℚ
  top : ℚ
  right : ℚ
  bottom : ℚ
deriving DecidableEq, Repr

/-- A draw-list command (`pixel_widgets::draw::Command`). -/
inductive DrawCommand where
  | Nop
  | Clip (scissor : Rectangle)
  | Colored (offset count : Nat)
  | Textured (texture offset count : Nat)
deriving DecidableEq, Repr

/-- An emitted host render command (`bevy::render::draw::RenderCommand`,
the variants this repository emits).  `Draw first stop` covers the vertex
range `offset..offset+count` with one instance. -/
inductive RenderCommand where
  | SetVertexBuffer (slot buffer offset : Nat)
  | SetBindGroup (index texture sampler : Nat)
  | Draw (first stop : Nat)
deriving DecidableEq, Repr

/-- The command walk of the newer revision (pixel_widgets_node.rs 391-435).
`bg` is the pass-wide `bind_group_set` flag (initialized once before the
entity loop, pixel_widgets_node.rs 270).  `Clip` is ignored entirely (the
source comments: no scrolling).  A `Colored` command with no bind group set
binds the first available texture as a placeholder; with an empty texture
map the source panics (`textures.iter().next().unwrap()`), modelled as
`none`. -/
def pixelEmit (textures : List (Nat × Nat)) (sampler : Nat) :
    Bool → List DrawCommand → Option (List RenderCommand × Bool)
  | bg, [] => some ([], bg)
  | bg, DrawCommand.Nop :: rest => pixelEmit textures sampler bg rest
  | bg, DrawCommand.Clip _ :: rest => pixelEmit textures sampler bg rest
  | bg, DrawCommand.Colored offset count :: rest =>
      if bg then
        (pixelEmit textures sampler true rest).map fun (l, b) =>
          (RenderCommand.Draw offset (offset + count) :: l, b)
      else
        match textures with
        | [] => none
        | (_, t) :: _ =>
            (pixelEmit textures sampler true rest).map fun (l, b) =>
              (RenderCommand.SetBindGroup 0 t sampler ::
               RenderCommand.Draw offset (offset + count) :: l, b)
  | bg, DrawCommand.Textured tex offset count :: rest =>
      match lookupKV tex textures with
      | none => none
      | some t =>
          (pixelEmit textures sampler true rest).map fun (l, b) =>
            (RenderCommand.SetBindGroup 0 t sampler ::
             RenderCommand.Draw offset (offset + count) :: l, b)

/-- The per-entity wrapper of the newer revision
(pixel_widgets_node.rs 388-436): with no vertex buffer stored the whole
command walk is skipped and nothing is emitted; otherwise a
`SetVertexBuffer` precedes the walk's output. -/
def pixelEmitEntity (textures : List (Nat × Nat)) (sampler : Nat)
    (vertex_buffer : Option Nat) (cmds : List DrawCommand) (bg : Bool) :
    Option (List RenderCommand × Bool) :=
  match vertex_buffer with
  | none => some ([], bg)
  | some b =>
      (pixelEmit textures sampler bg cmds).map fun (l, b2) =>
        (RenderCommand.SetVertexBuffer 0 b 0 :: l, b2)

/-- Local state of the older revision's command walk (node.rs 235-237): the
bind-group cache keyed by library texture id, and `current_scissor`. -/
structure NodeEmitSt where
  bindGroups : List (Nat × Nat)
  currentScissor : Option Rectangle
deriving DecidableEq, Repr

/-- The command walk of the older revision (node.rs 238-280).  `Clip` only
stores the region in `current_scissor`, which no other code reads.
`Colored` binds the first available texture only when the bind-group cache
is empty (panicking, `none`, when the texture map is empty too); `Textured`
resolves its id through the cache or the texture map (`unwrap` on a miss:
`none`). -/
def nodeEmit (textures : List (Nat × Nat)) (sampler : Nat) :
    NodeEmitSt → List DrawCommand → Option (List RenderCommand × NodeEmitSt)
  | st, [] => some ([], st)
  | st, DrawCommand.Nop :: rest => nodeEmit textures sampler st rest
  | st, DrawCommand.Clip r :: rest =>
      nodeEmit textures sampler { st with currentScissor := some r } rest
  | st, DrawCommand.Colored offset count :: rest =>
      if st.bindGroups = [] then
        match textures with
        | [] => none
        | (id, t) :: _ =>
            let st1 := { st with bindGroups := insertKV id t st.bindGroups }
            (nodeEmit textures sampler st1 rest).map fun (l, s) =>
              (RenderCommand.SetBindGroup 0 t sampler ::
               RenderCommand.Draw offset (offset + count) :: l, s)
      else
        (nodeEmit textures sampler st rest).map fun (l, s) =>
          (RenderCommand.Draw offset (offset + count) :: l, s)
  | st, DrawCommand.Textured tex offset count :: rest =>
      match lookupKV tex st.bindGroups with
      | some t =>
          (nodeEmit textures sampler st rest).map fun (l, s) =>
            (RenderCommand.SetBindGroup 0 t sampler ::
             RenderCommand.Draw offset (offset + count) :: l, s)
      | none =>
          match lookupKV tex textures with
          | none => none
          | some t =>
              let st1 := { st with bindGroups := insertKV tex t st.bindGroups }
              (nodeEmit textures sampler st1 rest).map fun (l, s) =>
                (RenderCommand.SetBindGroup 0 t sampler ::
                 RenderCommand.Draw offset (offset + count) :: l, s)

/-- Whether an event list contains an occurrence of `a` strictly before an
occurrence of `b`. -/
def followedBy (a b : Event) : List Event → Bool
  | [] => false
  | x :: xs =>
      if a = x then xs.contains b || followedBy a b xs else followedBy a b xs

/-!
## Helper lemmas
-/

theorem foldl_logCmd {C E : Type} (sent : List C)
    (init : List (AppliedAction C E)) :
    sent.foldl logCmd init = init ++ sent.map AppliedAction.cmd := by
  induction sent generalizing init with
  | nil => simp
  | cons c rest ih => simp [logCmd, ih]

theorem foldl_logEv {C E : Type} (events : List E)
    (init : List (AppliedAction C E)) :
    events.foldl logEv init = init ++ events.map AppliedAction.ev := by
  induction events generalizing init with
  | nil => simp
  | cons e rest ih => simp [logEv, ih]

theorem sendAll_queue {C : Type} (cs : List C) (q : List C) :
    sendAll ⟨q, false⟩ cs = ⟨q ++ cs, false⟩ := by
  induction cs generalizing q with
  | nil => simp [sendAll]
  | cons c rest ih =>
      simp only [sendAll, List.foldl_cons] at *
      simpa [Channel.send] using ih (q ++ [c])

theorem subresourcePadding_pos (w : Nat) : 0 < subresourcePadding w := by
  unfold subresourcePadding
  have h : 4 * w % 256 < 256 := Nat.mod_lt _ (by norm_num)
  omega

theorem padFold_length (p : Nat) (rows : List (List Nat)) (init : List Nat) :
    (rows.foldl (fun acc row => acc ++ row ++ List.replicate p 0)
      init).length
      = init.length + (rows.map fun r => r.length + p).sum := by
  induction rows generalizing init with
  | nil => simp
  | cons r rest ih =>
      simp only [List.foldl_cons, List.map_cons, List.sum_cons, ih,
        List.length_append, List.length_replicate]
      ring

theorem chunks_map_length (n : Nat) (hn : 0 < n) :
    ∀ (h : Nat) (data : List Nat), data.length = n * h →
      (chunks n data).map List.length = List.replicate h n := by
  intro h
  induction h with
  | zero =>
      intro data hd
      have hnil : data = [] := List.eq_nil_of_length_eq_zero (by omega)
      rw [chunks]
      simp [hnil]
  | succ k ih =>
      intro data hd
      have hge : n ≤ data.length := by
        rw [hd]
        calc n = n * 1 := by ring
        _ ≤ n * (k + 1) := Nat.mul_le_mul_left n (by omega)
      have hne : data ≠ [] := by
        intro e
        rw [e] at hge
        simp at hge
        omega
      rw [chunks, dif_pos ⟨hn, hne⟩]
      have hdrop : (data.drop n).length = n * k := by
        simp only [List.length_drop, hd]
        ring_nf
        omega
      simp only [List.map_cons, List.length_take, ih (data.drop n) hdrop,
        List.replicate_succ, hd]
      congr 1
      omega

theorem subresourceData_length (w h : Nat) (data : List Nat) (hw : 0 < w)
    (hd : data.length = 4 * w * h) :
    (subresourceData w data).length = subresourceBytesPerRow w * h := by
  unfold subresourceData
  rw [if_pos (subresourcePadding_pos w)]
  rw [padFold_length]
  have hmap : (chunks (4 * w) data).map
      (fun r => r.length + subresourcePadding w)
      = List.replicate h (4 * w + subresourcePadding w) := by
    have hcomp : (chunks (4 * w) data).map
        (fun r => r.length + subresourcePadding w)
        = ((chunks (4 * w) data).map List.length).map
            (· + subresourcePadding w) := by
      rw [List.map_map]
      rfl
    rw [hcomp, chunks_map_length (4 * w) (by omega) h data hd,
      List.map_replicate]
  rw [hmap]
  simp [List.sum_replicate, subresourceBytesPerRow]
  ring

theorem lookupKV_insertKV (k v : Nat) (m : List (Nat × Nat)) :
    lookupKV k (insertKV k v m) = some v := by
  induction m with
  | nil => simp [insertKV, lookupKV]
  | cons p rest ih =>
      rcases p with ⟨k1, v1⟩
      by_cases h : k1 = k
      · simp [insertKV, lookupKV, h]
      · simp [insertKV, lookupKV, h, ih]

theorem countKey_insertKV (k v : Nat) (m : List (Nat × Nat))
    (hm : countKey k m ≤ 1) : countKey k (insertKV k v m) = 1 := by
  induction m with
  | nil => simp [insertKV, countKey]
  | cons p rest ih =>
      rcases p with ⟨k1, v1⟩
      by_cases h : k1 = k
      · subst h
        have hrest : List.countP (fun p => decide (p.1 = k1)) rest = 0 := by
          simp [countKey, List.countP_cons] at hm
          simp [List.countP_eq_zero]
          intro a b hab
          exact hm a b hab
        simp [insertKV, countKey, List.countP_cons, hrest]
      · have hm2 : countKey k rest ≤ 1 := by
          simpa [countKey, List.countP_cons, h] using hm
        have ih2 := ih hm2
        simp only [countKey] at ih2
        simp [insertKV, countKey, List.countP_cons, h, ih2]

theorem releaseCalls_append (l1 l2 : List GpuEvent) :
    releaseCalls (l1 ++ l2) = releaseCalls l1 + releaseCalls l2 := by
  simp [releaseCalls, List.countP_append]

theorem applyUpdate_texture_shape (ctx : Rrc) (m : List (Nat × Nat))
    (copies : List CopyOp) (id : Nat) (sz : Nat × Nat) (d : List Nat) :
    ∃ (c1 : Rrc) (cp1 : List CopyOp),
      applyUpdate ctx m copies (Update.Texture id sz d)
        = some (c1, insertKV id ctx.nextId m, cp1)
      ∧ c1.liveTextures = ctx.liveTextures ++ [ctx.nextId]
      ∧ ctx.nextId < c1.nextId
      ∧ releaseCalls c1.log = releaseCalls ctx.log := by
  by_cases hd : 0 < d.length
  · refine ⟨⟨ctx.nextId + 2, ctx.liveBuffers ++ [ctx.nextId + 1],
        ctx.liveTextures ++ [ctx.nextId],
        ctx.log ++ [GpuEvent.createTexture ctx.nextId,
          GpuEvent.createBuffer (ctx.nextId + 1) d.length]⟩,
      copies ++ [⟨ctx.nextId + 1, sz.1 * 4, ctx.nextId, (0, 0), sz⟩],
      ?_, rfl, by show ctx.nextId < ctx.nextId + 2; omega, ?_⟩
    · simp [applyUpdate, Rrc.create_texture, Rrc.create_buffer_with_data,
        hd]
    · rw [releaseCalls_append]
      simp [releaseCalls]
  · refine ⟨⟨ctx.nextId + 1, ctx.liveBuffers,
        ctx.liveTextures ++ [ctx.nextId],
        ctx.log ++ [GpuEvent.createTexture ctx.nextId]⟩,
      copies, ?_, rfl, by show ctx.nextId < ctx.nextId + 1; omega, ?_⟩
    · simp [applyUpdate, Rrc.create_texture, hd]
    · rw [releaseCalls_append]
      simp [releaseCalls]

/-!
## Claim theorems
-/

/-- C1: draining the command channel in one per-frame update applies every
queued command in strict FIFO arrival order, all of them before any of the
frame's input events reaches the widget tree; the total applied count
equals the total sent count and the channel is left empty; a disconnected
channel yields no commands and is not an error.  Stated over the free
(trace-logging) model instance, whose application trace records exactly
what the session applied and in which order.  The capacity hypothesis keeps
the scenario inside the non-blocking regime of the bounded
`sync_channel(100)`. -/
theorem commands_fifo_applied_before_events {C E : Type} (sent : List C)
    (events : List E) (hcap : sent.length ≤ 100) :
    (runEntity logCmd logEv ([] : List (AppliedAction C E))
        (sendAll ⟨[], false⟩ sent) events).1
      = sent.map AppliedAction.cmd ++ events.map AppliedAction.ev
    ∧ ((runEntity logCmd logEv ([] : List (AppliedAction C E))
        (sendAll ⟨[], false⟩ sent) events).1.countP fun a =>
          match a with
          | AppliedAction.cmd _ => true
          | AppliedAction.ev _ => false) = sent.length
    ∧ (runEntity logCmd logEv ([] : List (AppliedAction C E))
        (sendAll ⟨[], false⟩ sent) events).2.queue = []
    ∧ (runEntity logCmd logEv ([] : List (AppliedAction C E))
        ⟨[], true⟩ events).1 = events.map AppliedAction.ev := by
  have hq : sendAll (⟨[], false⟩ : Channel C) sent = ⟨sent, false⟩ := by
    simpa using sendAll_queue sent []
  refine ⟨?_, ?_, ?_, ?_⟩
  · rw [hq]
    simp [runEntity, update_commands, Channel.tryIter, foldl_logCmd,
      foldl_logEv]
  · rw [hq]
    simp [runEntity, update_commands, Channel.tryIter, foldl_logCmd,
      foldl_logEv, List.countP_append, List.countP_map, Function.comp_def]
  · rw [hq]
    simp [runEntity, update_commands, Channel.tryIter]
  · simp [runEntity, update_commands, Channel.tryIter, foldl_logEv]

/-- C1 witness: three commands sent by producers before one frame update are
all applied, in send order, before the frame's single input event. -/
theorem commands_fifo_applied_before_events_witness :
    ([1, 2, 3].length ≤ 100)
    ∧ ((runEntity logCmd logEv ([] : List (AppliedAction ℕ ℕ))
        (sendAll ⟨[], false⟩ [1, 2, 3]) [4]).1
      = [AppliedAction.cmd 1, AppliedAction.cmd 2, AppliedAction.cmd 3,
         AppliedAction.ev 4]
    ∧ ((runEntity logCmd logEv ([] : List (AppliedAction ℕ ℕ))
        (sendAll ⟨[], false⟩ [1, 2, 3]) [4]).1.countP fun a =>
          match a with
          | AppliedAction.cmd _ => true
          | AppliedAction.ev _ => false) = [1, 2, 3].length
    ∧ (runEntity logCmd logEv ([] : List (AppliedAction ℕ ℕ))
        (sendAll ⟨[], false⟩ [1, 2, 3]) [4]).2.queue = []
    ∧ (runEntity logCmd logEv ([] : List (AppliedAction ℕ ℕ))
        ⟨[], true⟩ [4]).1 = [4].map AppliedAction.ev) :=
  ⟨by decide, commands_fifo_applied_before_events [1, 2, 3] [4] (by decide)⟩

/-- C5: on two successive frames with the identical window size, the
update.rs revision invokes `resize` only on the first frame (it stores the
applied size), but the render-node revision invokes `resize` on BOTH frames:
`render_ui` compares against `state.current_window_size` yet never assigns
it, so the repeated size is treated as new every frame, contradicting the
claimed invoke-only-on-change behaviour. -/
theorem render_node_resizes_every_frame :
    updateRsResizeRun none [(800, 600), (800, 600)]
      = (some (800, 600), [true, false])
    ∧ renderUiResizeRun none [(800, 600), (800, 600)]
      = (none, [true, true]) := by
  constructor
  · simp [updateRsResizeRun, updateRsResizeStep]
  · simp [renderUiResizeRun, renderUiResizeStep]

/-- C6: a pressed Win/logo key sets the `shift` field of the persistent
modifier record instead of `logo` (the `LWin | RWin` arm of update.rs
173-176 assigns `modifiers.shift`); the emitted `Modifiers` event carries
`shift = true, logo = false`, diverging from the claimed behaviour of
setting the `logo` field. -/
theorem win_key_sets_shift_not_logo :
    UpdateRs.processKeyboardEvent initModifiers
        ⟨some KeyCode.LWin, ElementState.Pressed⟩
      = (⟨false, false, true, false⟩,
         [Event.Modifiers ⟨false, false, true, false⟩])
    ∧ (Modifiers.mk false false true false).logo = false
    ∧ (Modifiers.mk false false true false).shift = true := by
  decide

/-- C9: a keyboard event whose key code is a right-variant modifier key
(`RShift`, `RControl`, `RAlt`) updates the modifier record and emits exactly
one `Modifiers` event carrying the full updated state, and never a `Press`
or `Release` event, because `translate_key_code` maps only the left
variants and drops the right variants. -/
theorem right_modifier_keys_emit_only_modifiers (mods : Modifiers)
    (k : KeyCode) (s : ElementState)
    (hk : k = KeyCode.RShift ∨ k = KeyCode.RControl ∨ k = KeyCode.RAlt) :
    translate_key_code k = none
    ∧ (UpdateRs.processKeyboardEvent mods ⟨some k, s⟩).2
        = [Event.Modifiers (UpdateRs.processKeyboardEvent mods
            ⟨some k, s⟩).1] := by
  rcases hk with rfl | rfl | rfl <;> cases s <;>
    simp [translate_key_code, UpdateRs.processKeyboardEvent, applyModifiers,
      UpdateRs.keyEvents]

/-- C9 witness: pressing `RShift` from the initial modifier state emits
exactly one `Modifiers` event and no `Press`. -/
theorem right_modifier_keys_emit_only_modifiers_witness :
    (KeyCode.RShift = KeyCode.RShift ∨ KeyCode.RShift = KeyCode.RControl
      ∨ KeyCode.RShift = KeyCode.RAlt)
    ∧ (translate_key_code KeyCode.RShift = none
    ∧ (UpdateRs.processKeyboardEvent initModifiers
        ⟨some KeyCode.RShift, ElementState.Pressed⟩).2
        = [Event.Modifiers (UpdateRs.processKeyboardEvent initModifiers
            ⟨some KeyCode.RShift, ElementState.Pressed⟩).1]) :=
  ⟨Or.inl rfl,
   right_modifier_keys_emit_only_modifiers initModifiers KeyCode.RShift
     ElementState.Pressed (Or.inl rfl)⟩

/-- C7 counterexample: in the key-derived-text revision (event.rs), pressing
the `A` key with no modifiers produces the event list
`[Text 'a', Press Key.A]` — the `Text` event precedes the `Press` event, so
the claimed sequence "`Press(Key::A)` followed by `Text('a')`" does not
occur. -/
theorem text_emitted_before_press :
    (EventRs.processKeyboardEvents initModifiers
        [⟨some KeyCode.A, ElementState.Pressed⟩]).2
      = [Event.Text 'a', Event.Press Key.A]
    ∧ followedBy (Event.Press Key.A) (Event.Text 'a')
        ((EventRs.processKeyboardEvents initModifiers
          [⟨some KeyCode.A, ElementState.Pressed⟩]).2) = false := by
  decide

/-- C7 amended: in the key-derived-text revision, pressing `A` with no
modifiers produces `Text('a')` followed by `Press(Key::A)` (in that order),
and pressing `A` with shift held produces `Text('A')`, again before the
`Press`. -/
theorem text_then_press_order :
    followedBy (Event.Text 'a') (Event.Press Key.A)
      ((EventRs.processKeyboardEvents initModifiers
        [⟨some KeyCode.A, ElementState.Pressed⟩]).2) = true
    ∧ ((EventRs.processKeyboardEvents initModifiers
        [⟨some KeyCode.LShift, ElementState.Pressed⟩,
         ⟨some KeyCode.A, ElementState.Pressed⟩]).2).contains
        (Event.Text 'A') = true
    ∧ followedBy (Event.Text 'A') (Event.Press Key.A)
        ((EventRs.processKeyboardEvents initModifiers
          [⟨some KeyCode.LShift, ElementState.Pressed⟩,
           ⟨some KeyCode.A, ElementState.Pressed⟩]).2) = true := by
  decide

/-- Modelled from the spec claim wording for texture row padding: the next
multiple of 256 that is greater than or equal to `4 * w` (so no padding is
added when `4 * w` is already a multiple of 256). -/
def specPaddedStride (w : Nat) : Nat := 256 * ((4 * w + 255) / 256)

/-- C2 counterexample: at width 64 the row byte count `4 * w = 256` is
already a multiple of 256, so the claim demands a padded stride of 256
(no padding); the code computes `padding = 256 - 256 % 256 = 256` and pads
each row to 512 bytes, giving a 512-byte staging buffer for one 256-byte
row. -/
theorem aligned_width_still_padded :
    specPaddedStride 64 = 256
    ∧ subresourcePadding 64 = 256
    ∧ subresourceBytesPerRow 64 = 512
    ∧ (subresourceData 64 (List.replicate 256 0)).length = 512
    ∧ (512 : Nat) ≠ 256 := by
  refine ⟨by decide, by decide, by decide, ?_, by decide⟩
  have h := subresourceData_length 64 1 (List.replicate 256 0) (by decide)
    (by simp only [List.length_replicate])
  rw [h]
  decide

/-- C2 amended: a `TextureSubresource` upload of pixel width `w` pads each
row by `256 - (4*w) % 256` bytes — so the padded stride is the smallest
multiple of 256 STRICTLY greater than `4*w`, and a full 256 bytes of
padding is added when `4*w` is already a multiple of 256 — and the padded
staging buffer length equals that stride times the height (width 100 gives
stride 512 and buffer `512 * height`, as the spec example says); a new
`Texture` upload, in contrast, is not padded at all: its staging buffer is
exactly the raw data and its row stride is `4*w`. -/
theorem subresource_padding_texture_unpadded (w h : Nat) (data : List Nat)
    (hw : 0 < w) (hd : data.length = 4 * w * h) :
    (subresourceData w data).length = subresourceBytesPerRow w * h
    ∧ subresourceBytesPerRow w % 256 = 0
    ∧ 4 * w < subresourceBytesPerRow w
    ∧ subresourceBytesPerRow w ≤ 4 * w + 256
    ∧ ∀ (ctx : Rrc) (textures : List (Nat × Nat)) (copies : List CopyOp)
        (id hh : Nat), 0 < data.length →
        applyUpdate ctx textures copies (Update.Texture id (w, hh) data)
          = some (⟨ctx.nextId + 2, ctx.liveBuffers ++ [ctx.nextId + 1],
              ctx.liveTextures ++ [ctx.nextId],
              ctx.log ++ [GpuEvent.createTexture ctx.nextId,
                GpuEvent.createBuffer (ctx.nextId + 1) data.length]⟩,
              insertKV id ctx.nextId textures,
              copies ++ [⟨ctx.nextId + 1, w * 4, ctx.nextId, (0, 0),
                (w, hh)⟩]) := by
  have hpad := subresourcePadding_pos w
  have hmod : 4 * w % 256 < 256 := Nat.mod_lt _ (by norm_num)
  have hdm := Nat.div_add_mod (4 * w) 256
  refine ⟨subresourceData_length w h data hw hd, ?_, ?_, ?_, ?_⟩
  · unfold subresourceBytesPerRow subresourcePadding
    omega
  · unfold subresourceBytesPerRow
    omega
  · unfold subresourceBytesPerRow subresourcePadding
    omega
  · intro ctx textures copies id hh hlen
    simp [applyUpdate, Rrc.create_texture, Rrc.create_buffer_with_data,
      hlen]

/-- C2 witness: width 100 (400 bytes per row), height 2 — stride 512,
padded buffer `512 * 2`, and the unpadded behaviour of the `Texture`
path. -/
theorem subresource_padding_texture_unpadded_witness :
    (0 < 100)
    ∧ (List.replicate 800 (0 : Nat)).length = 4 * 100 * 2
    ∧ ((subresourceData 100 (List.replicate 800 0)).length
        = subresourceBytesPerRow 100 * 2
    ∧ subresourceBytesPerRow 100 % 256 = 0
    ∧ 4 * 100 < subresourceBytesPerRow 100
    ∧ subresourceBytesPerRow 100 ≤ 4 * 100 + 256
    ∧ ∀ (ctx : Rrc) (textures : List (Nat × Nat)) (copies : List CopyOp)
        (id hh : Nat), 0 < (List.replicate 800 (0 : Nat)).length →
        applyUpdate ctx textures copies
            (Update.Texture id (100, hh) (List.replicate 800 0))
          = some (⟨ctx.nextId + 2, ctx.liveBuffers ++ [ctx.nextId + 1],
              ctx.liveTextures ++ [ctx.nextId],
              ctx.log ++ [GpuEvent.createTexture ctx.nextId,
                GpuEvent.createBuffer (ctx.nextId + 1)
                  (List.replicate 800 (0 : Nat)).length]⟩,
              insertKV id ctx.nextId textures,
              copies ++ [⟨ctx.nextId + 1, 100 * 4, ctx.nextId, (0, 0),
                (100, hh)⟩])) :=
  ⟨by decide, by simp only [List.length_replicate],
   subresource_padding_texture_unpadded 100 2 (List.replicate 800 0)
     (by decide) (by simp only [List.length_replicate])⟩

/-- C3 counterexample: starting from the state reached after one `Texture`
update with library id 7 (host texture 0 live, mapped), a second `Texture`
update with the same id 7 creates host texture 1 and overwrites the map
entry, but the log contains zero texture release calls and BOTH host
textures 0 and 1 are still live — the old host texture is leaked, not
released. -/
theorem texture_replace_releases_nothing :
    applyUpdate ⟨0, [], [], []⟩ [] [] (Update.Texture 7 (8, 8) [])
      = some (⟨1, [], [0], [GpuEvent.createTexture 0]⟩, [(7, 0)], [])
    ∧ applyUpdate ⟨1, [], [0], [GpuEvent.createTexture 0]⟩ [(7, 0)] []
        (Update.Texture 7 (8, 8) [])
      = some (⟨2, [], [0, 1],
          [GpuEvent.createTexture 0, GpuEvent.createTexture 1]⟩,
          [(7, 1)], [])
    ∧ releaseCalls [GpuEvent.createTexture 0, GpuEvent.createTexture 1] = 0
    ∧ [0, 1].length = 2 := by
  decide

/-- C3 amended: after two successive `Texture` updates with the same
library id, the per-entity map binds the id to exactly one host texture —
the one created by the second update — but the host texture created by the
first update remains live and no release call is ever made: the old
texture is leaked rather than released. -/
theorem texture_id_maps_once_but_leaks (ctx : Rrc) (m : List (Nat × Nat))
    (id : Nat) (sz : Nat × Nat) (d1 d2 : List Nat)
    (hm : countKey id m ≤ 1) :
    ∃ (c1 c2 : Rrc) (m1 m2 : List (Nat × Nat)) (cp1 cp2 : List CopyOp),
      applyUpdate ctx m [] (Update.Texture id sz d1) = some (c1, m1, cp1)
      ∧ applyUpdate c1 m1 [] (Update.Texture id sz d2) = some (c2, m2, cp2)
      ∧ lookupKV id m2 = some c1.nextId
      ∧ countKey id m2 = 1
      ∧ ctx.nextId ∈ c2.liveTextures
      ∧ c1.nextId ≠ ctx.nextId
      ∧ releaseCalls c2.log = releaseCalls ctx.log := by
  obtain ⟨c1, cp1, he1, hlive1, hlt1, hrel1⟩ :=
    applyUpdate_texture_shape ctx m [] id sz d1
  obtain ⟨c2, cp2, he2, hlive2, hlt2, hrel2⟩ :=
    applyUpdate_texture_shape c1 (insertKV id ctx.nextId m) [] id sz d2
  refine ⟨c1, c2, insertKV id ctx.nextId m,
    insertKV id c1.nextId (insertKV id ctx.nextId m), cp1, cp2,
    he1, he2, lookupKV_insertKV _ _ _, ?_, ?_, by omega, by omega⟩
  · exact countKey_insertKV id c1.nextId _ (by rw [countKey_insertKV id _ m hm])
  · rw [hlive2, hlive1]
    simp

/-- C3 amended witness: two `Texture` updates with id 7 from an empty map
and fresh context. -/
theorem texture_id_maps_once_but_leaks_witness :
    countKey 7 ([] : List (Nat × Nat)) ≤ 1
    ∧ ∃ (c1 c2 : Rrc) (m1 m2 : List (Nat × Nat)) (cp1 cp2 : List CopyOp),
      applyUpdate ⟨0, [], [], []⟩ [] [] (Update.Texture 7 (8, 8) [])
        = some (c1, m1, cp1)
      ∧ applyUpdate c1 m1 [] (Update.Texture 7 (8, 8) []) = some (c2, m2, cp2)
      ∧ lookupKV 7 m2 = some c1.nextId
      ∧ countKey 7 m2 = 1
      ∧ (Rrc.mk 0 [] [] []).nextId ∈ c2.liveTextures
      ∧ c1.nextId ≠ (Rrc.mk 0 [] [] []).nextId
      ∧ releaseCalls c2.log = releaseCalls (Rrc.mk 0 [] [] []).log :=
  ⟨by decide,
   texture_id_maps_once_but_leaks ⟨0, [], [], []⟩ [] 7 (8, 8) [] []
     (by decide)⟩

/-- C4: on a redraw, a non-empty vertex list allocates a fresh host buffer
of `vertex_count * 36` bytes (36 = `size_of::<Vertex>()`) and the previous
buffer is removed only AFTER the creation (the log records the create
before the remove); an empty vertex list removes any stored buffer and
records no buffer, and the per-entity render-command emission with no
stored buffer emits zero render commands (in particular zero draw
calls). -/
theorem vertex_buffer_replace_and_skip (ctx : Rrc) (vb : Option Nat)
    (vcount : Nat) (hfresh : ctx.nextId ∉ ctx.liveBuffers) :
    (0 < vcount →
      (reconcileVertexBuffer ctx vb vcount).2 = some ctx.nextId
      ∧ ctx.nextId ∉ ctx.liveBuffers
      ∧ (reconcileVertexBuffer ctx vb vcount).1.log
          = ctx.log ++ GpuEvent.createBuffer ctx.nextId (vcount * vertexStride)
              :: (match vb with
                  | some old => [GpuEvent.removeBuffer old]
                  | none => []))
    ∧ (vcount = 0 →
      (reconcileVertexBuffer ctx vb vcount).2 = none
      ∧ (reconcileVertexBuffer ctx vb vcount).1.log
          = ctx.log ++ (match vb with
              | some old => [GpuEvent.removeBuffer old]
              | none => [])
      ∧ ∀ (textures : List (Nat × Nat)) (sampler : Nat)
          (cmds : List DrawCommand) (bg : Bool),
          pixelEmitEntity textures sampler
            (reconcileVertexBuffer ctx vb vcount).2 cmds bg
            = some ([], bg)) := by
  constructor
  · intro hv
    unfold reconcileVertexBuffer
    rw [if_pos hv]
    cases vb with
    | none =>
        exact ⟨rfl, hfresh, by simp [Rrc.create_buffer_with_data]⟩
    | some old =>
        exact ⟨rfl, hfresh,
          by simp [Rrc.create_buffer_with_data, Rrc.remove_buffer]⟩
  · intro hv
    subst hv
    unfold reconcileVertexBuffer
    rw [if_neg (by omega)]
    cases vb with
    | none => exact ⟨rfl, by simp, fun _ _ _ _ => rfl⟩
    | some old =>
        exact ⟨rfl, by simp [Rrc.remove_buffer], fun _ _ _ _ => rfl⟩

/-- C4 witness: an entity holding buffer 3 redraws with 2 vertices (a fresh
72-byte buffer 4 replaces buffer 3), and an entity with buffer 3 and an
empty vertex list drops to no buffer and emits nothing. -/
theorem vertex_buffer_replace_and_skip_witness :
    ((Rrc.mk 4 [3] [] []).nextId ∉ (Rrc.mk 4 [3] [] []).liveBuffers)
    ∧ ((0 < 2 →
      (reconcileVertexBuffer ⟨4, [3], [], []⟩ (some 3) 2).2 = some 4
      ∧ (4 : Nat) ∉ [3]
      ∧ (reconcileVertexBuffer ⟨4, [3], [], []⟩ (some 3) 2).1.log
          = [] ++ GpuEvent.createBuffer 4 (2 * vertexStride)
              :: [GpuEvent.removeBuffer 3])
    ∧ ((2 : Nat) = 0 →
      (reconcileVertexBuffer ⟨4, [3], [], []⟩ (some 3) 2).2 = none
      ∧ (reconcileVertexBuffer ⟨4, [3], [], []⟩ (some 3) 2).1.log
          = [] ++ [GpuEvent.removeBuffer 3]
      ∧ ∀ (textures : List (Nat × Nat)) (sampler : Nat)
          (cmds : List DrawCommand) (bg : Bool),
          pixelEmitEntity textures sampler
            (reconcileVertexBuffer ⟨4, [3], [], []⟩ (some 3) 2).2 cmds bg
            = some ([], bg))) :=
  ⟨by decide, vertex_buffer_replace_and_skip ⟨4, [3], [], []⟩ (some 3) 2
    (by decide)⟩

/-- The `current_scissor` variable written by the older revision's `Clip`
arm never influences the emitted render commands: emission from states
differing only in `currentScissor` produces the same command list. -/
theorem nodeEmit_scissor_independent (textures : List (Nat × Nat))
    (sampler : Nat) :
    ∀ (cmds : List DrawCommand) (bgs : List (Nat × Nat))
      (sc1 sc2 : Option Rectangle),
      (nodeEmit textures sampler ⟨bgs, sc1⟩ cmds).map Prod.fst
        = (nodeEmit textures sampler ⟨bgs, sc2⟩ cmds).map Prod.fst := by
  intro cmds
  induction cmds with
  | nil => intro bgs sc1 sc2; rfl
  | cons c rest ih =>
      intro bgs sc1 sc2
      cases c with
      | Nop => exact ih bgs sc1 sc2
      | Clip r => exact ih bgs (some r) (some r)
      | Colored offset count =>
          simp only [nodeEmit]
          by_cases hb : bgs = []
          · rw [if_pos hb, if_pos hb]
            cases textures with
            | nil => rfl
            | cons p ts =>
                rcases p with ⟨id, t⟩
                have h := ih (insertKV id t bgs) sc1 sc2
                rcases h1 : nodeEmit ((id, t) :: ts) sampler
                    ⟨insertKV id t bgs, sc1⟩ rest with _ | ⟨l1, s1⟩ <;>
                  rcases h2 : nodeEmit ((id, t) :: ts) sampler
                    ⟨insertKV id t bgs, sc2⟩ rest with _ | ⟨l2, s2⟩ <;>
                  simp only [h1, h2] at h ⊢ <;> simp at h ⊢ <;> simp [h]
          · rw [if_neg hb, if_neg hb]
            have h := ih bgs sc1 sc2
            rcases h1 : nodeEmit textures sampler ⟨bgs, sc1⟩ rest
              with _ | ⟨l1, s1⟩ <;>
              rcases h2 : nodeEmit textures sampler ⟨bgs, sc2⟩ rest
                with _ | ⟨l2, s2⟩ <;>
              simp only [h1, h2] at h ⊢ <;> simp at h ⊢ <;> simp [h]
      | Textured tex offset count =>
          simp only [nodeEmit]
          cases hl : lookupKV tex bgs with
          | some t =>
              have h := ih bgs sc1 sc2
              rcases h1 : nodeEmit textures sampler ⟨bgs, sc1⟩ rest
                with _ | ⟨l1, s1⟩ <;>
                rcases h2 : nodeEmit textures sampler ⟨bgs, sc2⟩ rest
                  with _ | ⟨l2, s2⟩ <;>
                simp only [h1, h2] at h ⊢ <;> simp at h ⊢ <;> simp [h]
          | none =>
              cases hlt : lookupKV tex textures with
              | none => rfl
              | some t =>
                  have h := ih (insertKV tex t bgs) sc1 sc2
                  rcases h1 : nodeEmit textures sampler
                      ⟨insertKV tex t bgs, sc1⟩ rest with _ | ⟨l1, s1⟩ <;>
                    rcases h2 : nodeEmit textures sampler
                      ⟨insertKV tex t bgs, sc2⟩ rest with _ | ⟨l2, s2⟩ <;>
                    simp only [h1, h2] at h ⊢ <;> simp at h ⊢ <;> simp [h]

/-- C8 counterexample: emitting the draw-command list consisting of exactly
the spec's example clip region (left 10, top 20, width 100 so right 110,
height 50 so bottom 70) produces NO render command in either revision —
the newer revision drops `Clip` entirely and the older one only stores the
region in `current_scissor` — so no scissor-rect command scaled by any
display factor (the claimed `{x:20, y:40, w:200, h:100}`) is emitted; the
emitters do not even receive a scale factor. -/
theorem clip_region_emits_no_command :
    pixelEmit [(0, 5)] 9 false [DrawCommand.Clip ⟨10, 20, 110, 70⟩]
      = some ([], false)
    ∧ nodeEmit [(0, 5)] 9 ⟨[], none⟩ [DrawCommand.Clip ⟨10, 20, 110, 70⟩]
      = some ([], ⟨[], some ⟨10, 20, 110, 70⟩⟩) := by
  constructor
  · rfl
  · rfl

/-- C8 amended: `Clip` draw commands are ignored by render-command
emission in both revisions: the newer revision skips them outright, the
older stores the region in `current_scissor`, a variable whose value never
affects the emitted command list; no scissor command is emitted and no
scale factor is applied. -/
theorem clip_commands_ignored :
    (∀ (textures : List (Nat × Nat)) (sampler : Nat) (bg : Bool)
       (r : Rectangle) (rest : List DrawCommand),
      pixelEmit textures sampler bg (DrawCommand.Clip r :: rest)
        = pixelEmit textures sampler bg rest)
    ∧ (∀ (textures : List (Nat × Nat)) (sampler : Nat) (st : NodeEmitSt)
        (r : Rectangle) (rest : List DrawCommand),
      nodeEmit textures sampler st (DrawCommand.Clip r :: rest)
        = nodeEmit textures sampler { st with currentScissor := some r } rest)
    ∧ (∀ (textures : List (Nat × Nat)) (sampler : Nat)
        (bgs : List (Nat × Nat)) (sc1 sc2 : Option Rectangle)
        (cmds : List DrawCommand),
      (nodeEmit textures sampler ⟨bgs, sc1⟩ cmds).map Prod.fst
        = (nodeEmit textures sampler ⟨bgs, sc2⟩ cmds).map Prod.fst) :=
  ⟨fun _ _ _ _ _ => rfl, fun _ _ _ _ _ => rfl,
   fun textures sampler bgs sc1 sc2 cmds =>
     nodeEmit_scissor_independent textures sampler cmds bgs sc1 sc2⟩

/-- Whether a draw-command list contains no `Textured` command. -/
def noTextured : List DrawCommand → Bool
  | [] => true
  | DrawCommand.Textured _ _ _ :: _ => false
  | _ :: rest => noTextured rest

/-- Whether a draw-command list contains a `Colored` command. -/
def hasColored : List DrawCommand → Bool
  | [] => false
  | DrawCommand.Colored _ _ :: _ => true
  | _ :: rest => hasColored rest

theorem pixelEmit_true_isSome (textures : List (Nat × Nat)) (sampler : Nat) :
    ∀ (cmds : List DrawCommand), noTextured cmds = true →
      (pixelEmit textures sampler true cmds).isSome := by
  intro cmds
  induction cmds with
  | nil => intro _; simp [pixelEmit]
  | cons c rest ih =>
      cases c with
      | Nop =>
          intro h
          simp only [noTextured] at h
          simpa [pixelEmit] using ih h
      | Clip r =>
          intro h
          simp only [noTextured] at h
          simpa [pixelEmit] using ih h
      | Colored offset count =>
          intro h
          simp only [noTextured] at h
          simpa [pixelEmit, Option.isSome_map] using ih h
      | Textured tex offset count =>
          intro h
          simp [noTextured] at h

/-- C10: over draw-command lists free of `Textured` commands, emission in
the newer revision starting with no bind group set succeeds exactly when
the per-entity texture map is non-empty or the list reaches no `Colored`
command; in particular, a `Colored` command with an empty texture map and
no bind group set makes the placeholder binding panic (`none`) in both
revisions, so emitting `Colored` without panicking requires at least one
previously processed texture update. -/
theorem colored_placeholder_needs_texture (textures : List (Nat × Nat))
    (sampler : Nat) (cmds : List DrawCommand)
    (h : noTextured cmds = true) :
    ((pixelEmit textures sampler false cmds).isSome
      ↔ (textures ≠ [] ∨ hasColored cmds = false))
    ∧ (∀ (offset count : Nat) (rest : List DrawCommand),
        pixelEmit [] sampler false (DrawCommand.Colored offset count :: rest)
          = none)
    ∧ (∀ (offset count : Nat) (rest : List DrawCommand)
        (sc : Option Rectangle),
        nodeEmit [] sampler ⟨[], sc⟩
          (DrawCommand.Colored offset count :: rest) = none) := by
  refine ⟨?_, fun _ _ _ => rfl, fun _ _ _ _ => by simp [nodeEmit]⟩
  induction cmds with
  | nil => simp [pixelEmit, hasColored]
  | cons c rest ih =>
      cases c with
      | Nop =>
          simp only [noTextured] at h
          simpa [pixelEmit, hasColored] using ih h
      | Clip r =>
          simp only [noTextured] at h
          simpa [pixelEmit, hasColored] using ih h
      | Colored offset count =>
          simp only [noTextured] at h
          cases textures with
          | nil => simp [pixelEmit, hasColored]
          | cons p ts =>
              rcases p with ⟨id, t⟩
              simp [pixelEmit, hasColored, Option.isSome_map,
                pixelEmit_true_isSome ((id, t) :: ts) sampler rest h]
      | Textured tex offset count =>
          simp [noTextured] at h

/-- C10 witness: with one texture present, a lone `Colored` command emits
successfully; the panic cases at empty texture maps are part of the
conclusion. -/
theorem colored_placeholder_needs_texture_witness :
    noTextured [DrawCommand.Colored 0 6] = true
    ∧ (((pixelEmit [(0, 3)] 1 false [DrawCommand.Colored 0 6]).isSome
      ↔ (([(0, 3)] : List (Nat × Nat)) ≠ []
          ∨ hasColored [DrawCommand.Colored 0 6] = false))
    ∧ (∀ (offset count : Nat) (rest : List DrawCommand),
        pixelEmit [] 1 false (DrawCommand.Colored offset count :: rest)
          = none)
    ∧ (∀ (offset count : Nat) (rest : List DrawCommand)
        (sc : Option Rectangle),
        nodeEmit [] 1 ⟨[], sc⟩
          (DrawCommand.Colored offset count :: rest) = none)) :=
  ⟨by decide,
   colored_placeholder_needs_texture [(0, 3)] 1 [DrawCommand.Colored 0 6]
     (by decide)⟩

end BPW
